import Mathlib

set_option linter.unusedVariables false
set_option maxRecDepth 8000
set_option maxHeartbeats 2000000

/-!
Verification of the APER decoder internals of the hampi ASN.1 toolchain
(`codecs/src/aper/decode/decode_internal.rs`) against its design
specification.  The five decode functions are embedded from the source;
the bit-cursor type `AperCodecData` and its primitive operations, whose
definition lives outside the decoder file, are modelled from the spec
(§4.1, Bit Cursor).  Rust `i128` arithmetic is modelled as `Int` (the
claims under study never approach the 128-bit limits, except for
`leading_zeros`, which is modelled on the exact 128-bit two's-complement
representation); Rust `usize` is modelled as `Nat`, with the one
observable overflow (the `ub - lb + 1` underflow when `ub < lb`)
modelled explicitly as a panic.
-/

/-- Error value returned by codec operations (`AperCodecError` in the source:
a typed, catchable error carrying a diagnostic message). -/
structure AperCodecError where
  msg : String
  deriving DecidableEq, Repr

/-- Modelled from the spec: the Bit Cursor (`AperCodecData` in the source,
defined outside the decoder file): a byte `buffer` (each entry an octet,
reduced mod 256 on access) plus a `bit_position` cursor, an absolute offset
in bits from the start of the buffer. -/
structure AperCodecData where
  buffer : List Nat
  bit_position : Nat
  deriving DecidableEq, Repr

/-- Total number of addressable bits of the buffer (`bit_length` of the spec). -/
def bitLength (d : AperCodecData) : Nat := 8 * d.buffer.length

/-- The bit stored at absolute bit position `p`: MSB-first within each octet. -/
def getBitAt (d : AperCodecData) (p : Nat) : Bool :=
  Nat.testBit (d.buffer.getD (p / 8) 0 % 256) (7 - p % 8)

/-- Outcome of a decode operation.  `ok`/`err` carry the updated cursor (the
source mutates `data` in place and `?` propagates errors with prior cursor
movement kept); `abort` models a Rust panic (`unimplemented!`, arithmetic
overflow), which is a process abort, not a catchable `AperCodecError`. -/
inductive DResult (α : Type) where
  | ok : AperCodecData → α → DResult α
  | err : AperCodecData → AperCodecError → DResult α
  | abort : String → DResult α
  deriving DecidableEq, Repr

/-- Map a pure function over a successful outcome. -/
def dmap {α β : Type} (f : α → β) : DResult α → DResult β
  | .ok d v => .ok d (f v)
  | .err d e => .err d e
  | .abort m => .abort m

/-- Modelled from the spec: `read_bit` / `decode_bool` — consumes exactly one
bit (MSB-first), advances the position by 1; fails with `OutOfBits` (cursor
unchanged) if the position would exceed `bit_length`. -/
def decode_bool (d : AperCodecData) : DResult Bool :=
  if d.bit_position + 1 ≤ bitLength d then
    .ok { d with bit_position := d.bit_position + 1 } (getBitAt d d.bit_position)
  else
    .err d (AperCodecError.mk "OutOfBits")

/-- Unsigned big-endian value of the `n` bits starting at absolute position
`pos` (MSB first, so the bit at `pos` is the most significant). -/
def readBitsVal (d : AperCodecData) (pos : Nat) : Nat → Nat
  | 0 => 0
  | n + 1 => 2 * readBitsVal d pos n + (if getBitAt d (pos + n) then 1 else 0)

/-- Modelled from the spec: `read_bits_as_integer(n)` / `decode_bits_as_integer`
— consumes `n` bits (`0 ≤ n ≤ 128`), interprets them as an unsigned big-endian
bit string packed MSB-first into a 128-bit integer, advances the position by
`n`; `n = 0` yields 0 without consuming; fails with `OutOfBits` (cursor
unchanged) when fewer than `n` bits remain, and fails rather than silently
truncating when `n` exceeds the 128 bits of the result type (the spec gives
the operation the domain `0 ≤ n ≤ 128`). -/
def decode_bits_as_integer (d : AperCodecData) (n : Nat) : DResult Int :=
  if 128 < n then
    .err d (AperCodecError.mk "more than 128 bits requested")
  else if d.bit_position + n ≤ bitLength d then
    .ok { d with bit_position := d.bit_position + n }
      (Int.ofNat (readBitsVal d d.bit_position n))
  else
    .err d (AperCodecError.mk "OutOfBits")

/-- Pure octet alignment: advance the cursor to the next multiple of 8 bits
(no-op when already aligned). -/
def alignOctet (d : AperCodecData) : AperCodecData :=
  { d with bit_position := 8 * ((d.bit_position + 7) / 8) }

/-- Modelled from the spec: `align_to_octet` / `decode_align` — never fails. -/
def decode_align (d : AperCodecData) : DResult Unit :=
  .ok (alignOctet d) ()

/-- Number of zero bits from bit `k - 1` down to the most significant set bit
of `m` (all of `k` when no bit below `k` is set). -/
def clzAux (m : Nat) : Nat → Nat
  | 0 => 0
  | k + 1 => if m.testBit k then 0 else clzAux m k + 1

/-- `i128::leading_zeros` of the source: the number of leading zero bits of the
128-bit two's-complement representation. -/
def i128_leading_zeros (x : Int) : Nat :=
  clzAux (x % (2 : Int) ^ 128).toNat 128

/-- `bytes_needed_for_range` from the source: `128 - range.leading_zeros()`
bits, rounded up to whole octets. -/
def bytes_needed_for_range (range : Int) : Nat :=
  let bits_needed := 128 - i128_leading_zeros range
  let bytes_needed := bits_needed / 8
  if bits_needed % 8 ≠ 0 then bytes_needed + 1 else bytes_needed

/-- The bit-width table of the `range < 256` branch of
`decode_constrained_whole_number`: the source's `match range as u8` with arms
`0..=1 → 0, 2 → 1, 3..=4 → 2, 5..=8 → 3, 9..=16 → 4, 17..=32 → 5, 33..=64 → 6,
65..=128 → 7, 129..=255 → 8` (the argument is the `u8` cast of `range`). -/
def bits_for_range_u8 (r : Nat) : Nat :=
  if r ≤ 1 then 0
  else if r ≤ 2 then 1
  else if r ≤ 4 then 2
  else if r ≤ 8 then 3
  else if r ≤ 16 then 4
  else if r ≤ 32 then 5
  else if r ≤ 64 then 6
  else if r ≤ 128 then 7
  else 8

mutual

/-- `decode_constrained_length_detereminent` from the source (`lb`, `ub` are
`usize`).  `let range = ub - lb + 1` is inlined into the tests; the `usize`
subtraction panics on underflow when `ub < lb` (debug semantics; in release it
wraps into the unsupported branch, which also panics), modelled as `.abort`,
and the `range ≥ 65536` branch is the source's `unimplemented!`, a panic,
likewise modelled as `.abort`. -/
def decode_constrained_length_detereminent (data : AperCodecData) (lb ub : Nat) :
    DResult Nat :=
  if hov : ub < lb then
    .abort "attempt to subtract with overflow"
  else if hlt : ub - lb + 1 < 65536 then
    match decode_constrained_whole_number data (lb : Int) (ub : Int) with
    | .ok d length => .ok d length.toNat
    | .err d e => .err d e
    | .abort m => .abort m
  else
    .abort "not implemented: Lengths larger than 65536 are not supported yet."
termination_by (1 : Nat)
decreasing_by
  have h : ¬ (65536 ≤ (ub : Int) - (lb : Int) + 1) := by omega
  simp [h]

/-- `decode_constrained_whole_number` from the source (Section 10.5 of X.691):
`lb`, `ub` are `i128`; `let range = ub - lb + 1` is inlined into the tests. -/
def decode_constrained_whole_number (data : AperCodecData) (lb ub : Int) :
    DResult Int :=
  if hr : ub - lb + 1 ≤ 0 then
    .err data (AperCodecError.mk "Range for the Integer Constraint is negative.")
  else
    dmap (fun v => v + lb)
      (if h1 : ub - lb + 1 < 256 then
        decode_bits_as_integer data (bits_for_range_u8 ((ub - lb + 1).toNat % 256))
      else if h2 : ub - lb + 1 = 256 then
        match decode_align data with
        | .ok d _ => decode_bits_as_integer d 8
        | .err d e => .err d e
        | .abort m => .abort m
      else if h3 : ub - lb + 1 < 65536 then
        match decode_align data with
        | .ok d _ => decode_bits_as_integer d 16
        | .err d e => .err d e
        | .abort m => .abort m
      else
        match decode_constrained_length_detereminent data 1
            (bytes_needed_for_range (ub - lb + 1)) with
        | .ok d length =>
          match decode_align d with
          | .ok d2 _ => decode_bits_as_integer d2 ((length + 1) * 8)
          | .err d2 e => .err d2 e
          | .abort m => .abort m
        | .err d e => .err d e
        | .abort m => .abort m)
termination_by (if 65536 ≤ ub - lb + 1 then 2 else 0 : Nat)
decreasing_by
  have h : 65536 ≤ ub - lb + 1 := by omega
  simp [h]

end

/-- `decode_unconstrained_length_determinent` from the source. -/
def decode_unconstrained_length_determinent (data : AperCodecData) : DResult Nat :=
  match decode_align data with
  | .ok d0 _ =>
    match decode_bool d0 with
    | .ok d1 first =>
      if !first then
        match decode_bits_as_integer d1 7 with
        | .ok d2 v => .ok d2 v.toNat
        | .err d2 e => .err d2 e
        | .abort m => .abort m
      else
        match decode_bool d1 with
        | .ok d2 second =>
          if second then
            match decode_bits_as_integer d2 14 with
            | .ok d3 v => .ok d3 v.toNat
            | .err d3 e => .err d3 e
            | .abort m => .abort m
          else
            match decode_bits_as_integer d2 6 with
            | .ok d3 length =>
              if length > 4 ∨ length < 1 then
                .err d3 (AperCodecError.mk "The value should be 1 to 4")
              else
                .ok d3 (length * 16384).toNat
            | .err d3 e => .err d3 e
            | .abort m => .abort m
        | .err d2 e => .err d2 e
        | .abort m => .abort m
    | .err d1 e => .err d1 e
    | .abort m => .abort m
  | .err d0 e => .err d0 e
  | .abort m => .abort m

/-- `decode_normally_small_length_determinent` from the source. -/
def decode_normally_small_length_determinent (data : AperCodecData) : DResult Nat :=
  match decode_bool data with
  | .ok d is_small =>
    if !is_small then
      match decode_bits_as_integer d 6 with
      | .ok d2 v => .ok d2 (v.toNat + 1)
      | .err d2 e => .err d2 e
      | .abort m => .abort m
    else
      decode_unconstrained_length_determinent d
  | .err d e => .err d e
  | .abort m => .abort m

/-- `decode_unconstrained_whole_number` from the source (Section 10.8 of X.691). -/
def decode_unconstrained_whole_number (data : AperCodecData) : DResult Int :=
  match decode_unconstrained_length_determinent data with
  | .ok d length => decode_bits_as_integer d (length * 8)
  | .err d e => .err d e
  | .abort m => .abort m

/-- `decode_semi_constrained_whole_number` from the source (Section 10.7 of
X.691). -/
def decode_semi_constrained_whole_number (data : AperCodecData) (lb : Int) :
    DResult Int :=
  match decode_unconstrained_length_determinent data with
  | .ok d length =>
    match decode_bits_as_integer d (length * 8) with
    | .ok d2 val => .ok d2 (val + lb)
    | .err d2 e => .err d2 e
    | .abort m => .abort m
  | .err d e => .err d e
  | .abort m => .abort m

/-- The large-range (`range ≥ 65536`) decoding pipeline as the spec words it,
parameterized by the byte-count function: decode a constrained length
determinant with bounds `[1, bytes_needed]` to obtain `length`, align to an
octet boundary, read `(length + 1) * 8` bits, and add `lb`. -/
def decode_large_range_pipeline (bytesNeeded : Int → Nat) (data : AperCodecData)
    (lb ub : Int) : DResult Int :=
  match decode_constrained_length_detereminent data 1 (bytesNeeded (ub - lb + 1)) with
  | .ok d length =>
    dmap (fun v => v + lb) (decode_bits_as_integer (alignOctet d) ((length + 1) * 8))
  | .err d e => .err d e
  | .abort m => .abort m

/-- The number of bits required to represent `n` in its 128-bit
representation: `128` minus the count of leading zero bits (equal to
`Nat.size n` for every `n < 2 ^ 128`, proved below). -/
def bits_to_represent (n : Nat) : Nat :=
  128 - clzAux n 128

/-- The byte count exactly as claim C2 words it: the ceiling of `b / 8` where
`b` is the number of bits required to represent `range - 1`. -/
def bytes_needed_claimed (range : Int) : Nat :=
  (bits_to_represent (range - 1).toNat + 7) / 8

/-- The amended byte count: the ceiling of `b / 8` where
`b = 128 - leading_zero_count(range)` is the number of bits required to
represent `range` itself, as the source computes it. -/
def bytes_needed_amended (range : Int) : Nat :=
  (bits_to_represent range.toNat + 7) / 8

/-! ## Helper lemmas -/

theorem bitLength_alignOctet (d : AperCodecData) :
    bitLength (alignOctet d) = bitLength d := rfl

theorem getBitAt_alignOctet (d : AperCodecData) (p : Nat) :
    getBitAt (alignOctet d) p = getBitAt d p := rfl

theorem readBitsVal_lt (d : AperCodecData) (pos : Nat) :
    ∀ n : Nat, readBitsVal d pos n < 2 ^ n := by
  intro n
  induction n with
  | zero => simp [readBitsVal]
  | succ n ih =>
    rw [readBitsVal, pow_succ]
    split <;> omega

theorem testBit_high (m k : Nat) (hm : m < 2 ^ (k + 1)) :
    m.testBit k = decide (2 ^ k ≤ m) := by
  have hp : 0 < 2 ^ k := Nat.two_pow_pos k
  have hdiv : m / 2 ^ k < 2 := by
    rw [Nat.div_lt_iff_lt_mul hp]
    calc m < 2 ^ (k + 1) := hm
      _ = 2 * 2 ^ k := by ring
  rw [Nat.testBit_to_div_mod, Nat.mod_eq_of_lt hdiv]
  by_cases h : 2 ^ k ≤ m
  · have h1 : 1 ≤ m / 2 ^ k := (Nat.one_le_div_iff hp).mpr h
    have h2 : m / 2 ^ k = 1 := by omega
    simp [h2, h]
  · have h2 : m / 2 ^ k = 0 := Nat.div_eq_of_lt (by omega)
    simp [h2, h]

theorem clzAux_eq (k : Nat) : ∀ m : Nat, m < 2 ^ k → clzAux m k = k - m.size := by
  induction k with
  | zero =>
    intro m hm
    have hm0 : m = 0 := by omega
    subst hm0
    simp [clzAux, Nat.size_zero]
  | succ k ih =>
    intro m hm
    simp only [clzAux]
    rw [testBit_high m k hm]
    by_cases h : 2 ^ k ≤ m
    · have hs1 : m.size ≤ k + 1 := Nat.size_le.mpr hm
      have hs2 : k < m.size := Nat.lt_size.mpr h
      rw [if_pos (decide_eq_true h)]
      omega
    · have hmk : m < 2 ^ k := by omega
      have hs : m.size ≤ k := Nat.size_le.mpr hmk
      rw [if_neg (by simp [h]), ih m hmk]
      omega

theorem i128_leading_zeros_eq (x : Int) (h0 : 0 < x) (h1 : x < (2 : Int) ^ 128) :
    i128_leading_zeros x = 128 - x.toNat.size := by
  have hpow : ((2 ^ 128 : Nat) : Int) = (2 : Int) ^ 128 := by norm_cast
  have hx : x.toNat < 2 ^ 128 := by omega
  have hmod : x % (2 : Int) ^ 128 = x := Int.emod_eq_of_lt h0.le h1
  unfold i128_leading_zeros
  rw [hmod]
  exact clzAux_eq 128 x.toNat hx

theorem bytes_needed_for_range_eq (range : Int) (h0 : 0 < range)
    (h1 : range < (2 : Int) ^ 128) :
    bytes_needed_for_range range = (range.toNat.size + 7) / 8 := by
  have hpow : ((2 ^ 128 : Nat) : Int) = (2 : Int) ^ 128 := by norm_cast
  have hx : range.toNat < 2 ^ 128 := by omega
  have hs : range.toNat.size ≤ 128 := Nat.size_le.mpr hx
  simp only [bytes_needed_for_range]
  rw [i128_leading_zeros_eq range h0 h1]
  split <;> omega

theorem bits_to_represent_eq_size (n : Nat) (h : n < 2 ^ 128) :
    bits_to_represent n = n.size := by
  have hs : n.size ≤ 128 := Nat.size_le.mpr h
  unfold bits_to_represent
  rw [clzAux_eq 128 n h]
  omega

theorem constrained_err_of_nonpos (data : AperCodecData) (lb ub : Int)
    (h : ub - lb + 1 ≤ 0) :
    decode_constrained_whole_number data lb ub =
      .err data (AperCodecError.mk "Range for the Integer Constraint is negative.") := by
  rw [decode_constrained_whole_number.eq_def]
  rw [dif_pos h]

theorem constrained_lt256 (data : AperCodecData) (lb ub : Int)
    (h0 : 0 < ub - lb + 1) (h1 : ub - lb + 1 < 256) :
    decode_constrained_whole_number data lb ub =
      dmap (fun v => v + lb)
        (decode_bits_as_integer data (bits_for_range_u8 ((ub - lb + 1).toNat % 256))) := by
  rw [decode_constrained_whole_number.eq_def]
  rw [dif_neg (by omega), dif_pos h1]

theorem constrained_eq256 (data : AperCodecData) (lb ub : Int)
    (h : ub - lb + 1 = 256) :
    decode_constrained_whole_number data lb ub =
      dmap (fun v => v + lb) (decode_bits_as_integer (alignOctet data) 8) := by
  rw [decode_constrained_whole_number.eq_def]
  rw [dif_neg (by omega), dif_neg (by omega), dif_pos h]
  rfl

theorem constrained_mid (data : AperCodecData) (lb ub : Int)
    (h0 : 256 < ub - lb + 1) (h1 : ub - lb + 1 < 65536) :
    decode_constrained_whole_number data lb ub =
      dmap (fun v => v + lb) (decode_bits_as_integer (alignOctet data) 16) := by
  rw [decode_constrained_whole_number.eq_def]
  rw [dif_neg (by omega), dif_neg (by omega), dif_neg (by omega), dif_pos h1]
  rfl

theorem constrained_ge65536 (data : AperCodecData) (lb ub : Int)
    (h : 65536 ≤ ub - lb + 1) :
    decode_constrained_whole_number data lb ub =
      decode_large_range_pipeline bytes_needed_for_range data lb ub := by
  rw [decode_constrained_whole_number.eq_def]
  rw [dif_neg (by omega), dif_neg (by omega), dif_neg (by omega), dif_neg (by omega)]
  unfold decode_large_range_pipeline
  cases hdet : decode_constrained_length_detereminent data 1
    (bytes_needed_for_range (ub - lb + 1)) <;> rfl

theorem determinent_delegates (data : AperCodecData) (lb ub : Nat)
    (hle : lb ≤ ub) (hlt : ub - lb + 1 < 65536) :
    decode_constrained_length_detereminent data lb ub =
      dmap Int.toNat (decode_constrained_whole_number data (lb : Int) (ub : Int)) := by
  rw [decode_constrained_length_detereminent.eq_def]
  rw [dif_neg (by omega), dif_pos hlt]
  cases decode_constrained_whole_number data (lb : Int) (ub : Int) <;> rfl

theorem getBitAt_pos_irrel (buf : List Nat) (x y p : Nat) :
    getBitAt (AperCodecData.mk buf x) p = getBitAt (AperCodecData.mk buf y) p := rfl

theorem readBitsVal_pos_irrel (buf : List Nat) (x y pos : Nat) :
    ∀ n, readBitsVal (AperCodecData.mk buf x) pos n =
      readBitsVal (AperCodecData.mk buf y) pos n := by
  intro n
  induction n with
  | zero => rfl
  | succ n ih => rw [readBitsVal, readBitsVal, ih, getBitAt_pos_irrel buf x y]

theorem decode_bool_ok (buf : List Nat) (p : Nat) (h : p + 1 ≤ 8 * buf.length) :
    decode_bool (AperCodecData.mk buf p) =
      .ok (AperCodecData.mk buf (p + 1)) (getBitAt (AperCodecData.mk buf p) p) := by
  unfold decode_bool
  dsimp only [bitLength]
  rw [if_pos h]

theorem decode_bits_ok (buf : List Nat) (p n : Nat) (hn : n ≤ 128)
    (h : p + n ≤ 8 * buf.length) :
    decode_bits_as_integer (AperCodecData.mk buf p) n =
      .ok (AperCodecData.mk buf (p + n))
        ((readBitsVal (AperCodecData.mk buf p) p n : Nat) : Int) := by
  unfold decode_bits_as_integer
  dsimp only [bitLength]
  rw [if_neg (by omega), if_pos h]
  rfl

/-! ## Claims -/

/-- C1 (code_bug): the claim says that for bounds with `ub - lb + 1 ≥ 65536`,
`decode_constrained_length_detereminent` returns a typed, catchable
`UnsupportedRange` error and never aborts the process.  The code instead hits
`unimplemented!` — a panic that aborts — as evaluated here at the failing
input `lb = 0`, `ub = 65535` (range exactly 65536). -/
theorem c1_large_range_aborts :
    decode_constrained_length_detereminent (AperCodecData.mk [0, 0, 0, 0] 0) 0 65535 =
      .abort "not implemented: Lengths larger than 65536 are not supported yet." := by
  rw [decode_constrained_length_detereminent.eq_def]
  rw [dif_neg (by omega), dif_neg (by omega)]

/-- C9 (code_bug): the claim says that for `ub < lb`,
`decode_constrained_length_detereminent` fails immediately with a typed error
before any bits are consumed, rather than aborting, panicking, or wrapping.
The code computes the `usize` subtraction `ub - lb + 1`, which panics on
underflow (debug builds; in release it wraps into the `unimplemented!` branch,
which also panics) — as evaluated here at the failing input `lb = 10`,
`ub = 5`. -/
theorem c9_underflow_aborts :
    decode_constrained_length_detereminent (AperCodecData.mk [0, 0, 0, 0] 0) 10 5 =
      .abort "attempt to subtract with overflow" := by
  rw [decode_constrained_length_detereminent.eq_def]
  rw [dif_pos (by omega)]

/-- C3 (confirmed): for every decoder state and `lb`, `ub` with
`ub - lb + 1 ≤ 0`, `decode_constrained_whole_number` fails with the
invalid-range error (the source's typed
"Range for the Integer Constraint is negative." `AperCodecError`) and consumes
no bits: the returned cursor is exactly the input cursor. -/
theorem c3_invalid_range_reads_nothing (data : AperCodecData) (lb ub : Int)
    (h : ub - lb + 1 ≤ 0) :
    decode_constrained_whole_number data lb ub =
      .err data (AperCodecError.mk "Range for the Integer Constraint is negative.") ∧
    ∀ d e, decode_constrained_whole_number data lb ub = .err d e →
      d.bit_position = data.bit_position := by
  refine ⟨constrained_err_of_nonpos data lb ub h, ?_⟩
  intro d e hde
  rw [constrained_err_of_nonpos data lb ub h] at hde
  injection hde with h1 h2
  rw [← h1]

/-- Witness for C3 at `lb = 10`, `ub = 5` (the spec's own example) on a
mid-stream cursor. -/
theorem c3_witness :
    (5 : Int) - 10 + 1 ≤ 0 ∧
    decode_constrained_whole_number (AperCodecData.mk [7] 3) 10 5 =
      .err (AperCodecData.mk [7] 3)
        (AperCodecError.mk "Range for the Integer Constraint is negative.") :=
  ⟨by norm_num,
   (c3_invalid_range_reads_nothing (AperCodecData.mk [7] 3) 10 5 (by norm_num)).1⟩

/-- C6 (confirmed): on the same buffer and starting cursor,
`decode_semi_constrained_whole_number lb` is exactly
`decode_unconstrained_whole_number` with `lb` added to the success value:
same success/failure outcome, same decoded length determinant, same bits read,
same final cursor position. -/
theorem c6_semi_is_unconstrained_plus_lb (data : AperCodecData) (lb : Int) :
    decode_semi_constrained_whole_number data lb =
      dmap (fun v => v + lb) (decode_unconstrained_whole_number data) := by
  unfold decode_semi_constrained_whole_number decode_unconstrained_whole_number
  cases decode_unconstrained_length_determinent data with
  | ok d len =>
    dsimp only
    cases decode_bits_as_integer d (len * 8) <;> rfl
  | err d e => rfl
  | abort m => rfl

/-- C2 counterexample: the claim computes `bytes_needed` from the number of
bits required to represent `range - 1`; the code computes it from
`128 - leading_zero_count(range)`, the bit length of `range` itself.  The two
disagree whenever `range` is a power of two.  At `lb = 0`, `ub = 65535`
(range = 65536) on the buffer `[0x40, 0x01, 0x02, 0x03]`, the code uses
`bytes_needed = 3` (a 2-bit length determinant, final value 66051) while the
claim's pipeline uses `bytes_needed = 2` (a 1-bit determinant, final value
258), so the decode described by the claim differs from the code. -/
theorem c2_counterexample :
    decode_constrained_whole_number (AperCodecData.mk [64, 1, 2, 3] 0) 0 65535 ≠
      decode_large_range_pipeline bytes_needed_claimed
        (AperCodecData.mk [64, 1, 2, 3] 0) 0 65535 := by
  rw [constrained_ge65536 _ _ _ (by norm_num)]
  unfold decode_large_range_pipeline
  have hsz1 : (65536 : Nat).size = 17 := by
    have u1 : (65536 : Nat).size ≤ 17 := Nat.size_le.mpr (by norm_num)
    have u2 : 16 < (65536 : Nat).size := Nat.lt_size.mpr (by norm_num)
    omega
  have hsz2 : (65535 : Nat).size = 16 := by
    have u1 : (65535 : Nat).size ≤ 16 := Nat.size_le.mpr (by norm_num)
    have u2 : 15 < (65535 : Nat).size := Nat.lt_size.mpr (by norm_num)
    omega
  have hb1 : bytes_needed_for_range ((65535 : Int) - 0 + 1) = 3 := by
    rw [bytes_needed_for_range_eq _ (by norm_num) (by norm_num)]
    rw [show ((65535 : Int) - 0 + 1).toNat = 65536 by decide, hsz1]
  have hb2 : bytes_needed_claimed ((65535 : Int) - 0 + 1) = 2 := by
    unfold bytes_needed_claimed
    rw [show ((65535 : Int) - 0 + 1 - 1).toNat = 65535 by decide]
    rw [bits_to_represent_eq_size 65535 (by norm_num), hsz2]
  rw [hb1, hb2]
  rw [determinent_delegates _ 1 3 (by norm_num) (by norm_num),
      determinent_delegates _ 1 2 (by norm_num) (by norm_num)]
  rw [constrained_lt256 _ _ _ (by norm_num) (by norm_num),
      constrained_lt256 _ _ _ (by norm_num) (by norm_num)]
  decide

/-- C2 amended: for `range = ub - lb + 1 ≥ 65536`,
`decode_constrained_whole_number` computes `bytes_needed` as the ceiling of
`b / 8` where `b = 128 - leading_zero_count(range)` is the number of bits
required to represent `range` itself (not `range - 1`), decodes a constrained
length determinant with bounds `[1, bytes_needed]` to obtain `length`, aligns
to an octet boundary, reads exactly `(length + 1) * 8` bits as an unsigned
integer, and returns that value plus `lb`. -/
theorem c2_amended_large_range (data : AperCodecData) (lb ub : Int)
    (h0 : 65536 ≤ ub - lb + 1) (h1 : ub - lb + 1 < (2 : Int) ^ 128) :
    decode_constrained_whole_number data lb ub =
      decode_large_range_pipeline bytes_needed_amended data lb ub := by
  have hpow : ((2 ^ 128 : Nat) : Int) = (2 : Int) ^ 128 := by norm_cast
  have hx : (ub - lb + 1).toNat < 2 ^ 128 := by omega
  rw [constrained_ge65536 data lb ub h0]
  unfold decode_large_range_pipeline
  rw [bytes_needed_for_range_eq (ub - lb + 1) (by omega) h1,
      ← bits_to_represent_eq_size (ub - lb + 1).toNat hx]
  rfl

/-- Witness for the amended C2 at `lb = 0`, `ub = 65535` on
`[0x40, 0x01, 0x02, 0x03]`. -/
theorem c2_amended_witness :
    65536 ≤ (65535 : Int) - 0 + 1 ∧ (65535 : Int) - 0 + 1 < (2 : Int) ^ 128 ∧
    decode_constrained_whole_number (AperCodecData.mk [64, 1, 2, 3] 0) 0 65535 =
      decode_large_range_pipeline bytes_needed_amended
        (AperCodecData.mk [64, 1, 2, 3] 0) 0 65535 :=
  ⟨by norm_num, by norm_num,
   c2_amended_large_range (AperCodecData.mk [64, 1, 2, 3] 0) 0 65535
     (by norm_num) (by norm_num)⟩

/-- C8 (confirmed): `decode_constrained_whole_number` terminates on every
input (in this development its totality is established by the well-founded
definition itself); concretely, for every positive 128-bit `range`,
`bytes_needed_for_range range ≤ 16`, and for `range ≥ 65536` the nested
`decode_constrained_length_detereminent` call with bounds
`[1, bytes_needed]` has a sub-range `bytes_needed < 65536` (indeed `< 256`),
so it takes the non-recursive table branch of
`decode_constrained_whole_number` — a direct bit read — and no further
recursion occurs. -/
theorem c8_no_further_recursion (data : AperCodecData) (range : Int)
    (h0 : 0 < range) (h1 : range < (2 : Int) ^ 128) :
    bytes_needed_for_range range ≤ 16 ∧
    (65536 ≤ range →
      bytes_needed_for_range range < 65536 ∧
      decode_constrained_length_detereminent data 1 (bytes_needed_for_range range) =
        dmap Int.toNat (dmap (fun v => v + 1)
          (decode_bits_as_integer data
            (bits_for_range_u8 (bytes_needed_for_range range))))) := by
  have hpow : ((2 ^ 128 : Nat) : Int) = (2 : Int) ^ 128 := by norm_cast
  have hx : range.toNat < 2 ^ 128 := by omega
  have hs : range.toNat.size ≤ 128 := Nat.size_le.mpr hx
  have heq := bytes_needed_for_range_eq range h0 h1
  have hb16 : bytes_needed_for_range range ≤ 16 := by rw [heq]; omega
  refine ⟨hb16, ?_⟩
  intro h2
  have hpow16 : (65536 : Nat) = 2 ^ 16 := by norm_num
  have hge : 2 ^ 16 ≤ range.toNat := by omega
  have hsz : 16 < range.toNat.size := Nat.lt_size.mpr hge
  have hb3 : 3 ≤ bytes_needed_for_range range := by rw [heq]; omega
  refine ⟨by omega, ?_⟩
  rw [determinent_delegates data 1 (bytes_needed_for_range range) (by omega) (by omega)]
  rw [constrained_lt256 _ _ _ (by omega) (by omega)]
  have hcast : ((((bytes_needed_for_range range : Nat) : Int)) - ((1 : Nat) : Int)
      + 1).toNat % 256 = bytes_needed_for_range range := by omega
  rw [hcast]
  norm_num

/-- Witness for C8 at `range = 65536` (where `bytes_needed = 3`). -/
theorem c8_witness :
    bytes_needed_for_range 65536 ≤ 16 ∧
    bytes_needed_for_range 65536 < 65536 ∧
    decode_constrained_length_detereminent (AperCodecData.mk [] 0) 1
        (bytes_needed_for_range 65536) =
      dmap Int.toNat (dmap (fun v => v + 1)
        (decode_bits_as_integer (AperCodecData.mk [] 0)
          (bits_for_range_u8 (bytes_needed_for_range 65536)))) :=
  ⟨(c8_no_further_recursion (AperCodecData.mk [] 0) 65536 (by norm_num) (by norm_num)).1,
   ((c8_no_further_recursion (AperCodecData.mk [] 0) 65536 (by norm_num)
      (by norm_num)).2 (by norm_num)).1,
   ((c8_no_further_recursion (AperCodecData.mk [] 0) 65536 (by norm_num)
      (by norm_num)).2 (by norm_num)).2⟩

/-- C10 (confirmed, against the spec-modelled 128-bit read primitive): if
`decode_unconstrained_whole_number` or `decode_semi_constrained_whole_number`
returns successfully, the unconstrained length determinant it decoded was at
most 16 octets — both read the whole value with one
`decode_bits_as_integer (length * 8)` call whose bit count is capped at the
128 bits of the result type, so any larger announced length fails instead of
silently truncating. -/
theorem c10_success_length_le_16 (data : AperCodecData) :
    (∀ d v, decode_unconstrained_whole_number data = .ok d v →
      ∃ d0 len, decode_unconstrained_length_determinent data = .ok d0 len ∧
        len ≤ 16) ∧
    (∀ lb d v, decode_semi_constrained_whole_number data lb = .ok d v →
      ∃ d0 len, decode_unconstrained_length_determinent data = .ok d0 len ∧
        len ≤ 16) := by
  constructor
  · intro d v h
    unfold decode_unconstrained_whole_number at h
    cases hdet : decode_unconstrained_length_determinent data with
    | ok d0 len =>
      refine ⟨d0, len, rfl, ?_⟩
      simp only [hdet] at h
      unfold decode_bits_as_integer at h
      by_cases hn : 128 < len * 8
      · rw [if_pos hn] at h
        simp at h
      · omega
    | err d0 e =>
      rw [hdet] at h
      exact DResult.noConfusion h
    | abort m =>
      rw [hdet] at h
      exact DResult.noConfusion h
  · intro lb d v h
    unfold decode_semi_constrained_whole_number at h
    cases hdet : decode_unconstrained_length_determinent data with
    | ok d0 len =>
      refine ⟨d0, len, rfl, ?_⟩
      simp only [hdet] at h
      unfold decode_bits_as_integer at h
      by_cases hn : 128 < len * 8
      · rw [if_pos hn] at h
        simp at h
      · omega
    | err d0 e =>
      rw [hdet] at h
      exact DResult.noConfusion h
    | abort m =>
      rw [hdet] at h
      exact DResult.noConfusion h

/-- Witness for C10: a successful decode (buffer `[0x01, 0xAB]`, announced
length 1, value 171) together with the bounded determinant it implies. -/
theorem c10_witness :
    decode_unconstrained_whole_number (AperCodecData.mk [1, 171] 0) =
      .ok (AperCodecData.mk [1, 171] 16) 171 ∧
    ∃ d0 len,
      decode_unconstrained_length_determinent (AperCodecData.mk [1, 171] 0) =
        .ok d0 len ∧ len ≤ 16 :=
  ⟨by decide,
   (c10_success_length_le_16 (AperCodecData.mk [1, 171] 0)).1
     (AperCodecData.mk [1, 171] 16) 171 (by decide)⟩

theorem clog2_eq_of_bounds (r k : Nat) (h2 : 2 ≤ r) (hub : r ≤ 2 ^ k)
    (hlb : 2 ^ (k - 1) < r) : Nat.clog 2 r = k := by
  have hk : 1 ≤ k := by
    rcases Nat.eq_zero_or_pos k with rfl | h
    · simp at hub
      omega
    · exact h
  have h1 : Nat.clog 2 r ≤ k := (Nat.le_pow_iff_clog_le (by norm_num)).mp hub
  have h2' : k - 1 < Nat.clog 2 r := (Nat.pow_lt_iff_lt_clog (by norm_num)).mp hlb
  omega

theorem bits_table_bounds :
    ∀ r : Fin 256, 2 ≤ r.val →
      2 ^ (bits_for_range_u8 r.val - 1) < r.val ∧
        r.val ≤ 2 ^ bits_for_range_u8 r.val := by decide

theorem bits_for_range_u8_eq_clog (r : Nat) (h1 : 1 ≤ r) (h2 : r ≤ 255) :
    bits_for_range_u8 r = Nat.clog 2 r := by
  rcases h1.eq_or_lt with rfl | hr
  · rw [Nat.clog_one_right]
    rfl
  · have hb := bits_table_bounds ⟨r, by omega⟩ (show 2 ≤ r by omega)
    have hub : r ≤ 2 ^ bits_for_range_u8 r := hb.2
    have hlb : 2 ^ (bits_for_range_u8 r - 1) < r := hb.1
    exact (clog2_eq_of_bounds r (bits_for_range_u8 r) (by omega) hub hlb).symm

/-- C4 (confirmed): for ranges `1..255` the decoder reads, with no octet
alignment, exactly `⌈log2 range⌉` bits (the source's boundary table agrees
with `Nat.clog 2` on all of `1..255`), returning the value plus `lb`;
alignment starts exactly at `range = 256` (align, read 8 bits) and for
`256 < range < 65536` (align, read 16 bits). -/
theorem c4_bit_widths_and_alignment (data : AperCodecData) (lb ub : Int) :
    (∀ r : Nat, 1 ≤ r → r ≤ 255 → bits_for_range_u8 r = Nat.clog 2 r) ∧
    (1 ≤ ub - lb + 1 → ub - lb + 1 ≤ 255 →
      decode_constrained_whole_number data lb ub =
        dmap (fun v => v + lb)
          (decode_bits_as_integer data (Nat.clog 2 (ub - lb + 1).toNat))) ∧
    (ub - lb + 1 = 256 →
      decode_constrained_whole_number data lb ub =
        dmap (fun v => v + lb) (decode_bits_as_integer (alignOctet data) 8)) ∧
    (256 < ub - lb + 1 → ub - lb + 1 < 65536 →
      decode_constrained_whole_number data lb ub =
        dmap (fun v => v + lb) (decode_bits_as_integer (alignOctet data) 16)) := by
  refine ⟨bits_for_range_u8_eq_clog, ?_, constrained_eq256 data lb ub,
    constrained_mid data lb ub⟩
  intro ha hbnd
  rw [constrained_lt256 data lb ub (by omega) (by omega)]
  have hmod : (ub - lb + 1).toNat % 256 = (ub - lb + 1).toNat :=
    Nat.mod_eq_of_lt (by omega)
  rw [hmod, bits_for_range_u8_eq_clog _ (by omega) (by omega)]

/-- Witness for C4 at the unit test's constraint `[7, 14]` (range 8, 3 bits)
on the buffer `[0x70, 0, 0, 0]` with the cursor pre-advanced one bit. -/
theorem c4_witness :
    (1 : Int) ≤ 14 - 7 + 1 ∧ (14 : Int) - 7 + 1 ≤ 255 ∧
    decode_constrained_whole_number (AperCodecData.mk [112, 0, 0, 0] 1) 7 14 =
      dmap (fun v => v + 7)
        (decode_bits_as_integer (AperCodecData.mk [112, 0, 0, 0] 1)
          (Nat.clog 2 ((14 : Int) - 7 + 1).toNat)) :=
  ⟨by norm_num, by norm_num,
   (c4_bit_widths_and_alignment (AperCodecData.mk [112, 0, 0, 0] 1) 7 14).2.1
     (by norm_num) (by norm_num)⟩

/-- C7 (confirmed): `decode_normally_small_length_determinent` reads one bit;
if it is false it reads 6 more bits as `v` and returns `v + 1` (always in
`1..64`); if it is true it returns exactly
`decode_unconstrained_length_determinent` on the remaining stream. -/
theorem c7_normally_small_forms (data : AperCodecData) :
    (data.bit_position + 7 ≤ bitLength data →
      getBitAt data data.bit_position = false →
      decode_normally_small_length_determinent data =
        .ok (AperCodecData.mk data.buffer (data.bit_position + 7))
          (readBitsVal data (data.bit_position + 1) 6 + 1) ∧
      1 ≤ readBitsVal data (data.bit_position + 1) 6 + 1 ∧
      readBitsVal data (data.bit_position + 1) 6 + 1 ≤ 64) ∧
    (data.bit_position + 1 ≤ bitLength data →
      getBitAt data data.bit_position = true →
      decode_normally_small_length_determinent data =
        decode_unconstrained_length_determinent
          (AperCodecData.mk data.buffer (data.bit_position + 1))) := by
  obtain ⟨buf, pos⟩ := data
  dsimp only [bitLength]
  constructor
  · intro hb h0
    refine ⟨?_, by omega, ?_⟩
    · unfold decode_normally_small_length_determinent
      rw [decode_bool_ok buf pos (by omega)]
      rw [h0]
      show (match decode_bits_as_integer (AperCodecData.mk buf (pos + 1)) 6 with
            | DResult.ok d2 v => DResult.ok d2 (v.toNat + 1)
            | DResult.err d2 e => DResult.err d2 e
            | DResult.abort m => DResult.abort m) =
          DResult.ok (AperCodecData.mk buf (pos + 7))
            (readBitsVal (AperCodecData.mk buf pos) (pos + 1) 6 + 1)
      rw [decode_bits_ok buf (pos + 1) 6 (by norm_num) (by omega)]
      rw [show pos + 1 + 6 = pos + 7 by omega]
      rw [readBitsVal_pos_irrel buf (pos + 1) pos]
      rfl
    · have := readBitsVal_lt (AperCodecData.mk buf pos) (pos + 1) 6
      omega
  · intro hb h0
    unfold decode_normally_small_length_determinent
    rw [decode_bool_ok buf pos (by omega)]
    rw [h0]
    rfl

/-- Witness for C7: the small form on `[0x1A, 0]` (first bit 0, result 14)
and the large form on `[0x80, 0x17]` (first bit 1, delegation). -/
theorem c7_witness :
    decode_normally_small_length_determinent (AperCodecData.mk [26, 0] 0) =
      .ok (AperCodecData.mk [26, 0] 7) 14 ∧
    decode_normally_small_length_determinent (AperCodecData.mk [128, 23] 0) =
      decode_unconstrained_length_determinent (AperCodecData.mk [128, 23] 1) :=
  ⟨((c7_normally_small_forms (AperCodecData.mk [26, 0] 0)).1
      (by decide) (by decide)).1,
   (c7_normally_small_forms (AperCodecData.mk [128, 23] 0)).2
      (by decide) (by decide)⟩

/-- C5 (confirmed): `decode_unconstrained_length_determinent` aligns to an
octet, then reads 1 bit: if 0 the result is the next 7 bits (0–127); if 1 it
reads a second bit — if that is 1 the result is the next 14 bits (0–16383),
and if it is 0 it reads 6 bits as `m`, failing with the typed
"The value should be 1 to 4" error (the spec's `InvalidLengthMultiplier`)
whenever `m` is outside `1..=4`, and otherwise returning `m * 16384`. -/

theorem c5_unconstrained_length_forms (data : AperCodecData) :
    ((alignOctet data).bit_position + 8 ≤ bitLength data →
      getBitAt data (alignOctet data).bit_position = false →
      decode_unconstrained_length_determinent data =
        .ok (AperCodecData.mk data.buffer ((alignOctet data).bit_position + 8))
          (readBitsVal data ((alignOctet data).bit_position + 1) 7) ∧
      readBitsVal data ((alignOctet data).bit_position + 1) 7 < 128) ∧
    ((alignOctet data).bit_position + 16 ≤ bitLength data →
      getBitAt data (alignOctet data).bit_position = true →
      getBitAt data ((alignOctet data).bit_position + 1) = true →
      decode_unconstrained_length_determinent data =
        .ok (AperCodecData.mk data.buffer ((alignOctet data).bit_position + 16))
          (readBitsVal data ((alignOctet data).bit_position + 2) 14) ∧
      readBitsVal data ((alignOctet data).bit_position + 2) 14 < 16384) ∧
    ((alignOctet data).bit_position + 8 ≤ bitLength data →
      getBitAt data (alignOctet data).bit_position = true →
      getBitAt data ((alignOctet data).bit_position + 1) = false →
      (1 ≤ readBitsVal data ((alignOctet data).bit_position + 2) 6 →
        readBitsVal data ((alignOctet data).bit_position + 2) 6 ≤ 4 →
        decode_unconstrained_length_determinent data =
          .ok (AperCodecData.mk data.buffer ((alignOctet data).bit_position + 8))
            (readBitsVal data ((alignOctet data).bit_position + 2) 6 * 16384)) ∧
      (readBitsVal data ((alignOctet data).bit_position + 2) 6 = 0 ∨
          5 ≤ readBitsVal data ((alignOctet data).bit_position + 2) 6 →
        decode_unconstrained_length_determinent data =
          .err (AperCodecData.mk data.buffer ((alignOctet data).bit_position + 8))
            (AperCodecError.mk "The value should be 1 to 4"))) := by
  obtain ⟨buf, pos⟩ := data
  dsimp only [alignOctet, bitLength]
  refine ⟨?_, ?_, ?_⟩
  · intro hb h0
    constructor
    · unfold decode_unconstrained_length_determinent decode_align
      rw [show alignOctet (AperCodecData.mk buf pos) =
        AperCodecData.mk buf (8 * ((pos + 7) / 8)) from rfl]
      dsimp only
      rw [decode_bool_ok buf (8 * ((pos + 7) / 8)) (by omega)]
      rw [getBitAt_pos_irrel buf (8 * ((pos + 7) / 8)) pos, h0]
      show (match decode_bits_as_integer
            (AperCodecData.mk buf (8 * ((pos + 7) / 8) + 1)) 7 with
          | DResult.ok d2 v => DResult.ok d2 v.toNat
          | DResult.err d2 e => DResult.err d2 e
          | DResult.abort m => DResult.abort m) =
        DResult.ok (AperCodecData.mk buf (8 * ((pos + 7) / 8) + 8))
          (readBitsVal (AperCodecData.mk buf pos) (8 * ((pos + 7) / 8) + 1) 7)
      rw [decode_bits_ok buf (8 * ((pos + 7) / 8) + 1) 7 (by norm_num) (by omega)]
      rw [show 8 * ((pos + 7) / 8) + 1 + 7 = 8 * ((pos + 7) / 8) + 8 by omega]
      rw [readBitsVal_pos_irrel buf (8 * ((pos + 7) / 8) + 1) pos]
      rfl
    · have := readBitsVal_lt (AperCodecData.mk buf pos) (8 * ((pos + 7) / 8) + 1) 7
      norm_num at this
      omega
  · intro hb h0 h1
    constructor
    · unfold decode_unconstrained_length_determinent decode_align
      rw [show alignOctet (AperCodecData.mk buf pos) =
        AperCodecData.mk buf (8 * ((pos + 7) / 8)) from rfl]
      dsimp only
      rw [decode_bool_ok buf (8 * ((pos + 7) / 8)) (by omega)]
      rw [getBitAt_pos_irrel buf (8 * ((pos + 7) / 8)) pos, h0]
      show (match decode_bool (AperCodecData.mk buf (8 * ((pos + 7) / 8) + 1)) with
          | DResult.ok d2 second =>
            if second then
              match decode_bits_as_integer d2 14 with
              | DResult.ok d3 v => DResult.ok d3 v.toNat
              | DResult.err d3 e => DResult.err d3 e
              | DResult.abort m => DResult.abort m
            else
              match decode_bits_as_integer d2 6 with
              | DResult.ok d3 length =>
                if length > 4 ∨ length < 1 then
                  DResult.err d3 (AperCodecError.mk "The value should be 1 to 4")
                else
                  DResult.ok d3 (length * 16384).toNat
              | DResult.err d3 e => DResult.err d3 e
              | DResult.abort m => DResult.abort m
          | DResult.err d2 e => DResult.err d2 e
          | DResult.abort m => DResult.abort m) =
        DResult.ok (AperCodecData.mk buf (8 * ((pos + 7) / 8) + 16))
          (readBitsVal (AperCodecData.mk buf pos) (8 * ((pos + 7) / 8) + 2) 14)
      rw [decode_bool_ok buf (8 * ((pos + 7) / 8) + 1) (by omega)]
      rw [getBitAt_pos_irrel buf (8 * ((pos + 7) / 8) + 1) pos, h1]
      show (match decode_bits_as_integer
            (AperCodecData.mk buf (8 * ((pos + 7) / 8) + 1 + 1)) 14 with
          | DResult.ok d3 v => DResult.ok d3 v.toNat
          | DResult.err d3 e => DResult.err d3 e
          | DResult.abort m => DResult.abort m) =
        DResult.ok (AperCodecData.mk buf (8 * ((pos + 7) / 8) + 16))
          (readBitsVal (AperCodecData.mk buf pos) (8 * ((pos + 7) / 8) + 2) 14)
      rw [decode_bits_ok buf (8 * ((pos + 7) / 8) + 1 + 1) 14 (by norm_num) (by omega)]
      rw [show 8 * ((pos + 7) / 8) + 1 + 1 + 14 = 8 * ((pos + 7) / 8) + 16 by omega]
      rw [show 8 * ((pos + 7) / 8) + 1 + 1 = 8 * ((pos + 7) / 8) + 2 by omega]
      rw [readBitsVal_pos_irrel buf (8 * ((pos + 7) / 8) + 2) pos]
      rfl
    · have := readBitsVal_lt (AperCodecData.mk buf pos) (8 * ((pos + 7) / 8) + 2) 14
      norm_num at this
      omega
  · intro hb h0 h1
    have heq : decode_unconstrained_length_determinent (AperCodecData.mk buf pos) =
        (if ((readBitsVal (AperCodecData.mk buf pos)
              (8 * ((pos + 7) / 8) + 2) 6 : Nat) : Int) > 4 ∨
            ((readBitsVal (AperCodecData.mk buf pos)
              (8 * ((pos + 7) / 8) + 2) 6 : Nat) : Int) < 1 then
          DResult.err (AperCodecData.mk buf (8 * ((pos + 7) / 8) + 8))
            (AperCodecError.mk "The value should be 1 to 4")
        else
          DResult.ok (AperCodecData.mk buf (8 * ((pos + 7) / 8) + 8))
            ((((readBitsVal (AperCodecData.mk buf pos)
              (8 * ((pos + 7) / 8) + 2) 6 : Nat) : Int) * 16384).toNat)) := by
      unfold decode_unconstrained_length_determinent decode_align
      rw [show alignOctet (AperCodecData.mk buf pos) =
        AperCodecData.mk buf (8 * ((pos + 7) / 8)) from rfl]
      dsimp only
      rw [decode_bool_ok buf (8 * ((pos + 7) / 8)) (by omega)]
      rw [getBitAt_pos_irrel buf (8 * ((pos + 7) / 8)) pos, h0]
      show (match decode_bool (AperCodecData.mk buf (8 * ((pos + 7) / 8) + 1)) with
          | DResult.ok d2 second =>
            if second then
              match decode_bits_as_integer d2 14 with
              | DResult.ok d3 v => DResult.ok d3 v.toNat
              | DResult.err d3 e => DResult.err d3 e
              | DResult.abort m => DResult.abort m
            else
              match decode_bits_as_integer d2 6 with
              | DResult.ok d3 length =>
                if length > 4 ∨ length < 1 then
                  DResult.err d3 (AperCodecError.mk "The value should be 1 to 4")
                else
                  DResult.ok d3 (length * 16384).toNat
              | DResult.err d3 e => DResult.err d3 e
              | DResult.abort m => DResult.abort m
          | DResult.err d2 e => DResult.err d2 e
          | DResult.abort m => DResult.abort m) = _
      rw [decode_bool_ok buf (8 * ((pos + 7) / 8) + 1) (by omega)]
      rw [getBitAt_pos_irrel buf (8 * ((pos + 7) / 8) + 1) pos, h1]
      show (match decode_bits_as_integer
            (AperCodecData.mk buf (8 * ((pos + 7) / 8) + 1 + 1)) 6 with
          | DResult.ok d3 length =>
            if length > 4 ∨ length < 1 then
              DResult.err d3 (AperCodecError.mk "The value should be 1 to 4")
            else
              DResult.ok d3 (length * 16384).toNat
          | DResult.err d3 e => DResult.err d3 e
          | DResult.abort m => DResult.abort m) = _
      rw [decode_bits_ok buf (8 * ((pos + 7) / 8) + 1 + 1) 6 (by norm_num) (by omega)]
      rw [show 8 * ((pos + 7) / 8) + 1 + 1 + 6 = 8 * ((pos + 7) / 8) + 8 by omega]
      rw [show 8 * ((pos + 7) / 8) + 1 + 1 = 8 * ((pos + 7) / 8) + 2 by omega]
      rw [readBitsVal_pos_irrel buf (8 * ((pos + 7) / 8) + 2) pos]
    constructor
    · intro hm1 hm2
      rw [heq, if_neg (by omega)]
      have hv : (((readBitsVal (AperCodecData.mk buf pos)
          (8 * ((pos + 7) / 8) + 2) 6 : Nat) : Int) * 16384).toNat =
          readBitsVal (AperCodecData.mk buf pos) (8 * ((pos + 7) / 8) + 2) 6 * 16384 := by
        omega
      rw [hv]
    · intro hm
      rw [heq, if_pos (by omega)]

/-- Witness for C5, exercising all four outcomes: short form (`[0x17]` → 23),
2-octet form (`[0xC2, 0x34]` → 564), multiplier form (`[0x82, 0]`, m = 2 →
32768), and the invalid multiplier (`[0x85, 0]`, m = 5 → typed error). -/
theorem c5_witness :
    decode_unconstrained_length_determinent (AperCodecData.mk [23] 0) =
      .ok (AperCodecData.mk [23] 8) 23 ∧
    decode_unconstrained_length_determinent (AperCodecData.mk [194, 52] 0) =
      .ok (AperCodecData.mk [194, 52] 16) 564 ∧
    decode_unconstrained_length_determinent (AperCodecData.mk [130, 0] 0) =
      .ok (AperCodecData.mk [130, 0] 8) 32768 ∧
    decode_unconstrained_length_determinent (AperCodecData.mk [133, 0] 0) =
      .err (AperCodecData.mk [133, 0] 8)
        (AperCodecError.mk "The value should be 1 to 4") :=
  ⟨((c5_unconstrained_length_forms (AperCodecData.mk [23] 0)).1
      (by decide) (by decide)).1,
   ((c5_unconstrained_length_forms (AperCodecData.mk [194, 52] 0)).2.1
      (by decide) (by decide) (by decide)).1,
   ((c5_unconstrained_length_forms (AperCodecData.mk [130, 0] 0)).2.2
      (by decide) (by decide) (by decide)).1 (by decide) (by decide),
   ((c5_unconstrained_length_forms (AperCodecData.mk [133, 0] 0)).2.2
      (by decide) (by decide) (by decide)).2 (by decide)⟩
